import Mathlib

/-!
Shallow embedding of the `rust-agents` crate: the agent execution unit
(`RustAgent.execute` in `src/agent_runtime.rs`), the parallel executor
(`execute_parallel`), the Python-facing batch executor and metrics reducer
(`execute_agents_batch`, `get_metrics` in `src/python_bindings.rs`).

Modelling conventions:
- `f32`/`f64` values (temperature, execution_time) are modelled as exact
  rationals, per the spec's "within floating-point tolerance" reading.
- `u64`/`u128`/`usize` are modelled as `Nat` (no overflow occurs in the
  claims' ranges).
- The network is external: a call's outcome is an explicit `HttpOutcome`
  parameter (what `reqwest` returned for that request), and elapsed
  wall-clock time is an explicit parameter.
- `uuid::Uuid::new_v4()` is modelled as an injective fresh supply
  `uuidNewV4 : Nat → String` indexed by draw number; concurrent units
  draw successive indices from a base.
- `tokio::task::JoinSet::join_next` delivers completions in an arbitrary
  arrival order; this order is an explicit `List Nat` parameter, which
  theorems constrain to be a permutation of the spawned indices.
-/

/-- `AgentConfig` from `agent_runtime.rs` (f32 temperature as ℚ). -/
structure AgentConfig where
  name : String
  model : String
  ollama_url : String
  temperature : ℚ
  timeout_seconds : Nat
deriving DecidableEq

/-- `AgentResult` from `agent_runtime.rs` (u128 duration_ms as Nat). -/
structure AgentResult where
  agent_id : String
  status : String
  output : Option String
  error : Option String
  duration_ms : Nat
deriving DecidableEq

/-- A `serde_json::Value`. Numbers are modelled as rationals. -/
inductive Json where
  | null : Json
  | bool : Bool → Json
  | num : ℚ → Json
  | str : String → Json
  | arr : List Json → Json
  | obj : List (String × Json) → Json

/-- `serde_json::Value::get(key)`: field lookup on an object, `None` on any
other variant. -/
def Json.get (j : Json) (key : String) : Option Json :=
  match j with
  | Json.obj kvs => kvs.lookup key
  | _ => none

/-- `serde_json::Value::as_str()`. -/
def Json.asStr : Json → Option String
  | Json.str s => some s
  | _ => none

/-- What the network did for one HTTP request issued by `reqwest`:
either `send()` returned `Err` (connection failure, timeout), or a response
arrived with an HTTP status code and a body whose parse as JSON
(`response.json().await`) either failed or produced a `Json` value. -/
inductive HttpOutcome where
  | sendError : String → HttpOutcome
  | response : Nat → Except String Json → HttpOutcome

/-- `RustAgent` from `agent_runtime.rs`: owns its config and an HTTP client
built with the config's timeout (the client is modelled by the timeout it
was built with). -/
structure RustAgent where
  config : AgentConfig
  clientTimeoutSeconds : Nat
deriving DecidableEq

/-- `RustAgent::new`: builds the client from the config's timeout. The
`reqwest::Client::builder().build()` failure case is environmental
(TLS backend initialisation) and is modelled as always succeeding. -/
def RustAgent.new (config : AgentConfig) : RustAgent :=
  { config := config, clientTimeoutSeconds := config.timeout_seconds }

/-- The URL `execute` posts to: `{ollama_url}/api/generate`. -/
def RustAgent.requestUrl (agent : RustAgent) : String :=
  agent.config.ollama_url ++ "/api/generate"

/-- The JSON request body `execute` sends: model, prompt, temperature,
stream disabled. -/
def RustAgent.requestBody (agent : RustAgent) (task : String) : Json :=
  Json.obj [("model", Json.str agent.config.model),
            ("prompt", Json.str task),
            ("temperature", Json.num agent.config.temperature),
            ("stream", Json.bool false)]

/-- `RustAgent::execute` from `agent_runtime.rs`. `net` is the network's
outcome for the request to `requestUrl` with `requestBody task`; `elapsedMs`
is the measured wall-clock duration; `uuid` is the value drawn from the
uuid generator for this call. The two `?` operators in the source propagate
a send error and a body-parse error as `Except.error`; otherwise the result
is built with status `"completed"`, the body's `"response"` string field (if
any) as output, and no error. The HTTP status code of the response is never
inspected. -/
def RustAgent.execute (agent : RustAgent) (task : String) (net : HttpOutcome)
    (elapsedMs : Nat) (uuid : String) : Except String AgentResult :=
  match net with
  | HttpOutcome.sendError e => Except.error e
  | HttpOutcome.response _status bodyParse =>
    match bodyParse with
    | Except.error e => Except.error e
    | Except.ok result =>
      Except.ok { agent_id := uuid,
                  status := "completed",
                  output := (result.get "response").bind Json.asStr,
                  error := none,
                  duration_ms := elapsedMs }

/-- Model of `uuid::Uuid::new_v4()`: the process-wide random generator is
modelled as an injective supply indexed by draw number (v4 draws are
collision-free for the purposes of the spec). -/
def uuidNewV4 (draw : Nat) : String :=
  String.mk (List.replicate (draw + 1) 'u')

/-- The outcomes of the concurrent units spawned by `execute_parallel`, in
spawn order: unit `i` (holding the `i`-th (agent, task) pair of the zip)
runs `agent.execute` with its own network outcome `net i`, elapsed time
`elapsed i`, and uuid draw `base + i`. -/
def unitOutcomesGo (net : Nat → HttpOutcome) (elapsed : Nat → Nat) :
    Nat → List (RustAgent × String) → List (Except String AgentResult)
  | _, [] => []
  | b, (a, t) :: rest =>
    a.execute t (net b) (elapsed b) (uuidNewV4 b) ::
      unitOutcomesGo net elapsed (b + 1) rest

/-- Spawn phase of `execute_parallel`: `agents.zip tasks` determines the
units of work (surplus agents or tasks beyond the zip are dropped). -/
def unitOutcomes (agents : List RustAgent) (tasks : List String)
    (net : Nat → HttpOutcome) (elapsed : Nat → Nat) (base : Nat) :
    List (Except String AgentResult) :=
  unitOutcomesGo net elapsed base (agents.zip tasks)

/-- Join phase of `execute_parallel`: `results.push(res??)` in arrival
order — the first errored unit aborts the whole call, dropping results
pushed so far. -/
def joinAll : List (Except String AgentResult) → Except String (List AgentResult)
  | [] => Except.ok []
  | x :: rest =>
    match x with
    | Except.error e => Except.error e
    | Except.ok r =>
      match joinAll rest with
      | Except.error e => Except.error e
      | Except.ok rs => Except.ok (r :: rs)

/-- Arrival order applied to the spawned outcomes: `order` lists unit
indices in the order `join_next` delivered them. -/
def reorder (order : List Nat) (l : List (Except String AgentResult)) :
    List (Except String AgentResult) :=
  order.map (fun i => l.getD i (Except.error "join error"))

/-- `execute_parallel` from `agent_runtime.rs`: spawn one unit per
`(agent, task)` pair of the zip, then join in arrival order `order`. -/
def execute_parallel (agents : List RustAgent) (tasks : List String)
    (net : Nat → HttpOutcome) (elapsed : Nat → Nat) (base : Nat)
    (order : List Nat) : Except String (List AgentResult) :=
  joinAll (reorder order (unitOutcomes agents tasks net elapsed base))

/-- `PyAgentResult` from `python_bindings.rs` (f64 execution_time as ℚ). -/
structure PyAgentResult where
  agent_id : String
  status : String
  output : Option String
  error : Option String
  execution_time : ℚ
deriving DecidableEq

/-- `impl From<AgentResult> for PyAgentResult`: `duration_ms as f64`. -/
def PyAgentResult.fromResult (r : AgentResult) : PyAgentResult :=
  { agent_id := r.agent_id, status := r.status, output := r.output,
    error := r.error, execution_time := (r.duration_ms : ℚ) }

/-- The agent list `execute_agents_batch` rebuilds for each input: one
fresh `RustAgent` per `(id, config)` pair, with the config's name replaced
by the pair's id. -/
def batchAgents (agent_configs : List (String × AgentConfig)) : List RustAgent :=
  agent_configs.map (fun p => RustAgent.new { p.2 with name := p.1 })

/-- The loop body of `execute_agents_batch`: for each input, in input
order, rebuild the agents, run `execute_parallel` over all of them against
that single input (`tasks = vec![input; rust_agents.len()]`), and append
the converted results; an error from `execute_parallel` aborts the whole
call. `k` is the input index, used to select that input's network
environment and arrival order. -/
def batchGo (agent_configs : List (String × AgentConfig))
    (net : Nat → Nat → HttpOutcome) (elapsed : Nat → Nat → Nat)
    (base : Nat → Nat) (order : Nat → List Nat) :
    Nat → List String → Except String (List PyAgentResult)
  | _, [] => Except.ok []
  | k, input :: rest =>
    match execute_parallel (batchAgents agent_configs)
        (List.replicate (batchAgents agent_configs).length input)
        (net k) (elapsed k) (base k) (order k) with
    | Except.error e => Except.error e
    | Except.ok results =>
      match batchGo agent_configs net elapsed base order (k + 1) rest with
      | Except.error e => Except.error e
      | Except.ok tail =>
        Except.ok (results.map PyAgentResult.fromResult ++ tail)

/-- `execute_agents_batch` from `python_bindings.rs`: sequential over
inputs, parallel within each input. -/
def execute_agents_batch (agent_configs : List (String × AgentConfig))
    (inputs : List String) (net : Nat → Nat → HttpOutcome)
    (elapsed : Nat → Nat → Nat) (base : Nat → Nat)
    (order : Nat → List Nat) : Except String (List PyAgentResult) :=
  batchGo agent_configs net elapsed base order 0 inputs

/-- `PyExecutionMetrics` from `python_bindings.rs`. -/
structure PyExecutionMetrics where
  total_agents : Nat
  successful : Nat
  failed : Nat
  total_time : ℚ
  avg_time : ℚ
deriving DecidableEq

/-- `get_metrics` from `python_bindings.rs`. Sums over f64 are modelled as
exact rational sums (f64 addition order is immaterial in the exact model). -/
def get_metrics (results : List PyAgentResult) : PyExecutionMetrics :=
  let total_agents := results.length
  let successful := (results.filter (fun r => r.status == "completed")).length
  let failed := total_agents - successful
  let total_time : ℚ := (results.map (fun r => r.execution_time)).sum
  let avg_time : ℚ :=
    if total_agents > 0 then total_time / (total_agents : ℚ) else 0
  { total_agents := total_agents, successful := successful, failed := failed,
    total_time := total_time, avg_time := avg_time }

/-- The config of the crate's own unit test `test_agent_config`. -/
def testConfig : AgentConfig :=
  { name := "test", model := "qwen2.5-coder:14b",
    ollama_url := "http://localhost:11434",
    temperature := 7 / 10, timeout_seconds := 60 }

/-- Projection used to read the correlation id out of a unit outcome. -/
def exId : Except String AgentResult → String
  | Except.ok r => r.agent_id
  | Except.error e => e

/-- A network environment answering every unit with HTTP 200 and the JSON
body containing `response = "hi there"` (the spec's worked example). -/
def netHiThere : Nat → HttpOutcome :=
  fun _ => HttpOutcome.response 200
    (Except.ok (Json.obj [("response", Json.str "hi there")]))

/-- Two agents, for the surplus-dropping witness. -/
def twoAgents : List RustAgent :=
  [RustAgent.new testConfig, RustAgent.new { testConfig with name := "second" }]

/-- A network environment answering every unit with HTTP 200 and an empty
JSON object body. -/
def netEmptyObj : Nat → HttpOutcome :=
  fun _ => HttpOutcome.response 200 (Except.ok (Json.obj []))

/-- The single result of the surplus-dropping witness run. -/
def surplusResult : AgentResult :=
  { agent_id := uuidNewV4 0, status := "completed", output := none,
    error := none, duration_ms := 2 }

/-- The results of the first witness call for the correlation-id claim. -/
def freshIdsRun1 : List AgentResult :=
  [{ agent_id := uuidNewV4 0, status := "completed", output := some "hi there",
     error := none, duration_ms := 3 }]

/-- The results of the second witness call for the correlation-id claim
(same agent, next uuid draw). -/
def freshIdsRun2 : List AgentResult :=
  [{ agent_id := uuidNewV4 1, status := "completed", output := some "hi there",
     error := none, duration_ms := 4 }]

/-- The single (id, config) pair of the batch witness. -/
def batchConfigs : List (String × AgentConfig) := [("worker", testConfig)]

/-- The output of the batch witness run: one config, one input, one
result. -/
def batchOut : List PyAgentResult :=
  [PyAgentResult.fromResult
    { agent_id := uuidNewV4 0, status := "completed",
      output := some "hi there", error := none, duration_ms := 3 }]

/-- A successful join forces every delivered outcome to have been `ok`, in
that order: `joinAll l = ok rs` exactly when `l` is `rs` wrapped in `ok`. -/
theorem joinAll_eq_ok : ∀ {l : List (Except String AgentResult)}
    {rs : List AgentResult}, joinAll l = Except.ok rs → l = rs.map Except.ok := by
  intro l
  induction l with
  | nil =>
    intro rs h
    simp only [joinAll, Except.ok.injEq] at h
    simp [← h]
  | cons x rest ih =>
    intro rs h
    cases x with
    | error e => simp [joinAll] at h
    | ok r =>
      cases hj : joinAll rest with
      | error e => simp [joinAll, hj] at h
      | ok rs2 =>
        simp only [joinAll, hj, Except.ok.injEq] at h
        subst h
        simp [ih hj]

/-- Spawning produces one outcome per pair. -/
theorem unitOutcomesGo_length (net : Nat → HttpOutcome) (elapsed : Nat → Nat) :
    ∀ (b : Nat) (pairs : List (RustAgent × String)),
      (unitOutcomesGo net elapsed b pairs).length = pairs.length := by
  intro b pairs
  induction pairs generalizing b with
  | nil => rfl
  | cons p rest ih =>
    cases p with
    | mk a t => simp [unitOutcomesGo, ih]

/-- The number of spawned units is the zip length, i.e. the minimum of the
two input lengths. -/
theorem unitOutcomes_length (agents : List RustAgent) (tasks : List String)
    (net : Nat → HttpOutcome) (elapsed : Nat → Nat) (base : Nat) :
    (unitOutcomes agents tasks net elapsed base).length =
      min agents.length tasks.length := by
  simp [unitOutcomes, unitOutcomesGo_length, List.length_zip]

/-- Reading every index of a list back in index order reproduces the
list. -/
theorem map_getD_range (l : List (Except String AgentResult)) :
    (List.range l.length).map (fun i => l.getD i (Except.error "join error")) = l := by
  apply List.ext_getElem
  · simp
  · intro i h1 h2
    simp [List.getD_eq_getElem?_getD, List.getElem?_eq_getElem h2]

/-- Delivering the spawned outcomes in any arrival order that is a
permutation of the spawn indices yields a permutation of the outcome
list. -/
theorem reorder_perm {order : List Nat} {l : List (Except String AgentResult)}
    (h : order.Perm (List.range l.length)) : (reorder order l).Perm l := by
  have hmap := h.map (fun i => l.getD i (Except.error "join error"))
  rw [map_getD_range] at hmap
  exact hmap

/-- When `execute_parallel` returns `ok rs`, the multiset of returned
results is exactly the multiset of unit outcomes (all of which were `ok`). -/
theorem execute_parallel_ok_perm {agents : List RustAgent}
    {tasks : List String} {net : Nat → HttpOutcome} {elapsed : Nat → Nat}
    {base : Nat} {order : List Nat} {rs : List AgentResult}
    (hord : order.Perm (List.range (agents.zip tasks).length))
    (hok : execute_parallel agents tasks net elapsed base order = Except.ok rs) :
    (rs.map Except.ok).Perm (unitOutcomes agents tasks net elapsed base) := by
  have hlen : List.range (agents.zip tasks).length =
      List.range (unitOutcomes agents tasks net elapsed base).length := by
    rw [unitOutcomes, unitOutcomesGo_length]
  have hperm : (reorder order (unitOutcomes agents tasks net elapsed base)).Perm
      (unitOutcomes agents tasks net elapsed base) :=
    reorder_perm (hlen ▸ hord)
  have heq : reorder order (unitOutcomes agents tasks net elapsed base) =
      rs.map Except.ok := joinAll_eq_ok hok
  rw [← heq]
  exact hperm

/-- When `execute_parallel` returns `ok rs`, it returns one result per
spawned unit: `rs` has the zip length. -/
theorem execute_parallel_ok_length {agents : List RustAgent}
    {tasks : List String} {net : Nat → HttpOutcome} {elapsed : Nat → Nat}
    {base : Nat} {order : List Nat} {rs : List AgentResult}
    (hord : order.Perm (List.range (agents.zip tasks).length))
    (hok : execute_parallel agents tasks net elapsed base order = Except.ok rs) :
    rs.length = min agents.length tasks.length := by
  have hperm := execute_parallel_ok_perm hord hok
  have hlen := hperm.length_eq
  simpa [unitOutcomes_length] using hlen

/-- Claim C2: over K (agent, task) pairs (equal-length inputs), the call
either fails visibly with a single aggregate error, or returns exactly K
results with every pair contributing exactly one (the returned multiset is
exactly the multiset of per-unit outcomes); never a partial collection. -/
theorem execute_parallel_one_result_per_pair (agents : List RustAgent)
    (tasks : List String) (net : Nat → HttpOutcome) (elapsed : Nat → Nat)
    (base : Nat) (order : List Nat)
    (hK : agents.length = tasks.length)
    (hord : order.Perm (List.range (agents.zip tasks).length)) :
    (∃ e, execute_parallel agents tasks net elapsed base order = Except.error e) ∨
    (∃ rs, execute_parallel agents tasks net elapsed base order = Except.ok rs ∧
      rs.length = agents.length ∧
      (rs.map Except.ok).Perm (unitOutcomes agents tasks net elapsed base)) := by
  cases hres : execute_parallel agents tasks net elapsed base order with
  | error e => exact Or.inl ⟨e, rfl⟩
  | ok rs =>
    refine Or.inr ⟨rs, rfl, ?_, execute_parallel_ok_perm hord hres⟩
    have hlen := execute_parallel_ok_length hord hres
    rw [hK] at hlen ⊢
    simpa using hlen

/-- Claim C2 witness: one pair, a successful call. -/
theorem execute_parallel_one_result_per_pair_witness :
    ([RustAgent.new testConfig].length = ["hello"].length ∧
      ([0] : List Nat).Perm
        (List.range ([RustAgent.new testConfig].zip ["hello"]).length)) ∧
    ((∃ e, execute_parallel [RustAgent.new testConfig] ["hello"]
        netHiThere (fun _ => 3) 0 [0] = Except.error e) ∨
    (∃ rs, execute_parallel [RustAgent.new testConfig] ["hello"]
        netHiThere (fun _ => 3) 0 [0] = Except.ok rs ∧
      rs.length = [RustAgent.new testConfig].length ∧
      (rs.map Except.ok).Perm (unitOutcomes [RustAgent.new testConfig]
        ["hello"] netHiThere (fun _ => 3) 0))) :=
  ⟨⟨rfl, by decide⟩,
    execute_parallel_one_result_per_pair [RustAgent.new testConfig] ["hello"]
      netHiThere (fun _ => 3) 0 [0] rfl (by decide)⟩

/-- Claim C10: with unequal input lists, only the zip's worth of units is
spawned — min(agents, tasks) — and a successful call returns exactly
min(agents, tasks) results; the surplus is dropped without any error. -/
theorem execute_parallel_unequal_lengths_drops_surplus
    (agents : List RustAgent) (tasks : List String) (net : Nat → HttpOutcome)
    (elapsed : Nat → Nat) (base : Nat) (order : List Nat)
    (rs : List AgentResult)
    (hord : order.Perm (List.range (agents.zip tasks).length))
    (hok : execute_parallel agents tasks net elapsed base order = Except.ok rs) :
    (unitOutcomes agents tasks net elapsed base).length =
      min agents.length tasks.length ∧
    rs.length = min agents.length tasks.length :=
  ⟨unitOutcomes_length agents tasks net elapsed base,
   execute_parallel_ok_length hord hok⟩

/-- Claim C10 witness: two agents, one task — one unit spawned, one result
returned, the second agent silently dropped. -/
theorem execute_parallel_unequal_lengths_drops_surplus_witness :
    (([0] : List Nat).Perm
        (List.range ((twoAgents.zip ["only task"]).length)) ∧
      execute_parallel twoAgents ["only task"] netEmptyObj (fun _ => 2) 0 [0] =
        Except.ok [surplusResult]) ∧
    ((unitOutcomes twoAgents ["only task"] netEmptyObj (fun _ => 2) 0).length =
        min twoAgents.length ["only task"].length ∧
      [surplusResult].length = min twoAgents.length ["only task"].length) :=
  ⟨⟨by decide, rfl⟩,
    execute_parallel_unequal_lengths_drops_surplus twoAgents ["only task"]
      netEmptyObj (fun _ => 2) 0 [0] [surplusResult] (by decide) rfl⟩

/-- Distinct draws from the modelled uuid generator are distinct ids. -/
theorem uuidNewV4_injective : Function.Injective uuidNewV4 := by
  intro a b h
  have hlen : a + 1 = b + 1 := by
    simpa [uuidNewV4, String.length] using congrArg String.length h
  omega

/-- A successful `execute` call's result carries exactly the uuid drawn for
that call as its `agent_id` (never the agent's configured name). -/
theorem execute_ok_agent_id {agent : RustAgent} {task : String}
    {net : HttpOutcome} {e : Nat} {u : String} {r : AgentResult}
    (h : agent.execute task net e u = Except.ok r) : r.agent_id = u := by
  cases net with
  | sendError msg => simp [RustAgent.execute] at h
  | response s bp =>
    cases bp with
    | error msg => simp [RustAgent.execute] at h
    | ok j =>
      simp only [RustAgent.execute, Except.ok.injEq] at h
      rw [← h]

/-- When every spawned unit succeeded, the ids of the unit outcomes are
precisely the uuid draws `base, base+1, ...` in spawn order. -/
theorem unitOutcomesGo_allOk_map_exId (net : Nat → HttpOutcome)
    (elapsed : Nat → Nat) :
    ∀ (pairs : List (RustAgent × String)) (b : Nat),
      (∀ x ∈ unitOutcomesGo net elapsed b pairs, ∃ r, x = Except.ok r) →
      (unitOutcomesGo net elapsed b pairs).map exId =
        (List.range' b pairs.length).map uuidNewV4 := by
  intro pairs
  induction pairs with
  | nil => intro b _; rfl
  | cons p rest ih =>
    intro b hall
    cases p with
    | mk a t =>
      obtain ⟨r, hr⟩ :=
        hall (a.execute t (net b) (elapsed b) (uuidNewV4 b))
          (by simp [unitOutcomesGo])
      have htail := ih (b + 1)
        (fun x hx => hall x (by simp [unitOutcomesGo]; exact Or.inr hx))
      have hid : r.agent_id = uuidNewV4 b := execute_ok_agent_id hr
      calc (unitOutcomesGo net elapsed b ((a, t) :: rest)).map exId
          = exId (a.execute t (net b) (elapsed b) (uuidNewV4 b)) ::
              (unitOutcomesGo net elapsed (b + 1) rest).map exId := by
            simp [unitOutcomesGo]
        _ = uuidNewV4 b :: (List.range' (b + 1) rest.length).map uuidNewV4 := by
            rw [hr, htail]; simp [exId, hid]
        _ = (List.range' b ((a, t) :: rest).length).map uuidNewV4 := by
            simp [List.range'_succ]

/-- When `execute_parallel` returns `ok rs`, the multiset of correlation
ids in `rs` is exactly the uuid draws `base .. base + K - 1`. -/
theorem execute_parallel_ok_ids {agents : List RustAgent}
    {tasks : List String} {net : Nat → HttpOutcome} {elapsed : Nat → Nat}
    {base : Nat} {order : List Nat} {rs : List AgentResult}
    (hord : order.Perm (List.range (agents.zip tasks).length))
    (hok : execute_parallel agents tasks net elapsed base order = Except.ok rs) :
    (rs.map AgentResult.agent_id).Perm
      ((List.range' base (agents.zip tasks).length).map uuidNewV4) := by
  have hperm := execute_parallel_ok_perm hord hok
  have hall : ∀ x ∈ unitOutcomes agents tasks net elapsed base,
      ∃ r, x = Except.ok r := by
    intro x hx
    have hx2 : x ∈ rs.map Except.ok := hperm.mem_iff.mpr hx
    obtain ⟨r, _, hr⟩ := List.mem_map.mp hx2
    exact ⟨r, hr.symm⟩
  have hmap := hperm.map exId
  rw [unitOutcomes,
    unitOutcomesGo_allOk_map_exId net elapsed (agents.zip tasks) base hall] at hmap
  have hcomp : (rs.map Except.ok).map exId = rs.map AgentResult.agent_id := by
    rw [List.map_map]
    rfl
  rw [hcomp] at hmap
  exact hmap

/-- Claim C9: every result's `agent_id` is a freshly drawn uuid (one of the
draws `base + i` for this call, never reused), and across two calls whose
draws do not overlap — as successive draws from the process-wide generator
never do — all correlation ids, within each call and across the calls, are
pairwise distinct. -/
theorem execute_parallel_correlation_ids_distinct
    (agents1 : List RustAgent) (tasks1 : List String)
    (net1 : Nat → HttpOutcome) (elapsed1 : Nat → Nat) (b1 : Nat)
    (order1 : List Nat) (rs1 : List AgentResult)
    (agents2 : List RustAgent) (tasks2 : List String)
    (net2 : Nat → HttpOutcome) (elapsed2 : Nat → Nat) (b2 : Nat)
    (order2 : List Nat) (rs2 : List AgentResult)
    (hord1 : order1.Perm (List.range (agents1.zip tasks1).length))
    (hord2 : order2.Perm (List.range (agents2.zip tasks2).length))
    (hok1 : execute_parallel agents1 tasks1 net1 elapsed1 b1 order1 =
      Except.ok rs1)
    (hok2 : execute_parallel agents2 tasks2 net2 elapsed2 b2 order2 =
      Except.ok rs2)
    (hdisj : b1 + (agents1.zip tasks1).length ≤ b2) :
    ((rs1 ++ rs2).map AgentResult.agent_id).Nodup ∧
    (∀ r ∈ rs1, ∃ i, i < (agents1.zip tasks1).length ∧
      r.agent_id = uuidNewV4 (b1 + i)) ∧
    (∀ r ∈ rs2, ∃ i, i < (agents2.zip tasks2).length ∧
      r.agent_id = uuidNewV4 (b2 + i)) := by
  have hids1 := execute_parallel_ok_ids hord1 hok1
  have hids2 := execute_parallel_ok_ids hord2 hok2
  refine ⟨?_, ?_, ?_⟩
  · have happ : ((rs1 ++ rs2).map AgentResult.agent_id).Perm
        ((List.range' b1 (agents1.zip tasks1).length ++
          List.range' b2 (agents2.zip tasks2).length).map uuidNewV4) := by
      rw [List.map_append, List.map_append]
      exact hids1.append hids2
    have hnodup : ((List.range' b1 (agents1.zip tasks1).length ++
        List.range' b2 (agents2.zip tasks2).length).map uuidNewV4).Nodup := by
      apply List.Nodup.map uuidNewV4_injective
      rw [List.nodup_append]
      refine ⟨List.nodup_range' _ _, List.nodup_range' _ _, ?_⟩
      intro m hm1 hm2
      have h1 := List.mem_range'_1.mp hm1
      have h2 := List.mem_range'_1.mp hm2
      omega
    exact happ.nodup_iff.mpr hnodup
  · intro r hr
    have hmem : r.agent_id ∈
        (List.range' b1 (agents1.zip tasks1).length).map uuidNewV4 :=
      hids1.mem_iff.mp (List.mem_map_of_mem AgentResult.agent_id hr)
    obtain ⟨m, hm, hmeq⟩ := List.mem_map.mp hmem
    have hmr := List.mem_range'_1.mp hm
    exact ⟨m - b1, by omega, by rw [← hmeq]; congr 1; omega⟩
  · intro r hr
    have hmem : r.agent_id ∈
        (List.range' b2 (agents2.zip tasks2).length).map uuidNewV4 :=
      hids2.mem_iff.mp (List.mem_map_of_mem AgentResult.agent_id hr)
    obtain ⟨m, hm, hmeq⟩ := List.mem_map.mp hmem
    have hmr := List.mem_range'_1.mp hm
    exact ⟨m - b2, by omega, by rw [← hmeq]; congr 1; omega⟩

/-- Claim C9 witness: two successive calls on the same single agent; the
two correlation ids are distinct and neither is the configured name. -/
theorem execute_parallel_correlation_ids_distinct_witness :
    (([0] : List Nat).Perm
        (List.range ([RustAgent.new testConfig].zip ["hello"]).length) ∧
      execute_parallel [RustAgent.new testConfig] ["hello"] netHiThere
        (fun _ => 3) 0 [0] = Except.ok freshIdsRun1 ∧
      execute_parallel [RustAgent.new testConfig] ["hello"] netHiThere
        (fun _ => 4) 1 [0] = Except.ok freshIdsRun2 ∧
      0 + ([RustAgent.new testConfig].zip ["hello"]).length ≤ 1) ∧
    (((freshIdsRun1 ++ freshIdsRun2).map AgentResult.agent_id).Nodup ∧
      (∀ r ∈ freshIdsRun1, ∃ i,
        i < ([RustAgent.new testConfig].zip ["hello"]).length ∧
        r.agent_id = uuidNewV4 (0 + i)) ∧
      (∀ r ∈ freshIdsRun2, ∃ i,
        i < ([RustAgent.new testConfig].zip ["hello"]).length ∧
        r.agent_id = uuidNewV4 (1 + i))) :=
  ⟨⟨by decide, rfl, rfl, by decide⟩,
    execute_parallel_correlation_ids_distinct
      [RustAgent.new testConfig] ["hello"] netHiThere (fun _ => 3) 0 [0]
      freshIdsRun1
      [RustAgent.new testConfig] ["hello"] netHiThere (fun _ => 4) 1 [0]
      freshIdsRun2
      (by decide) (by decide) rfl rfl (by decide)⟩

/-- Within one batch step, the zip of the rebuilt agents with the
replicated input has exactly one pair per configured agent. -/
theorem batch_zip_length (agent_configs : List (String × AgentConfig))
    (input : String) :
    ((batchAgents agent_configs).zip
      (List.replicate (batchAgents agent_configs).length input)).length =
    agent_configs.length := by
  simp [batchAgents, List.length_zip]

/-- A successful batch run is a concatenation of per-input groups, one group
per input in input order, each with one result per configured agent. -/
theorem batchGo_ok_groups (agent_configs : List (String × AgentConfig))
    (net : Nat → Nat → HttpOutcome) (elapsed : Nat → Nat → Nat)
    (base : Nat → Nat) (order : Nat → List Nat)
    (hord : ∀ k, (order k).Perm (List.range agent_configs.length)) :
    ∀ (inputs : List String) (k : Nat) (l : List PyAgentResult),
      batchGo agent_configs net elapsed base order k inputs = Except.ok l →
      ∃ groups : List (List PyAgentResult),
        l = groups.flatten ∧ groups.length = inputs.length ∧
        ∀ g ∈ groups, g.length = agent_configs.length := by
  intro inputs
  induction inputs with
  | nil =>
    intro k l h
    simp only [batchGo, Except.ok.injEq] at h
    exact ⟨[], by simp [← h], rfl, by simp⟩
  | cons input rest ih =>
    intro k l h
    cases hp : execute_parallel (batchAgents agent_configs)
        (List.replicate (batchAgents agent_configs).length input)
        (net k) (elapsed k) (base k) (order k) with
    | error e => simp [batchGo, hp] at h
    | ok results =>
      cases ht : batchGo agent_configs net elapsed base order (k + 1) rest with
      | error e => simp [batchGo, hp, ht] at h
      | ok tail =>
        have hl : l = results.map PyAgentResult.fromResult ++ tail := by
          simp only [batchGo, hp, ht, Except.ok.injEq] at h
          exact h.symm
        obtain ⟨groups, hg1, hg2, hg3⟩ := ih (k + 1) tail ht
        have hordk : (order k).Perm (List.range
            ((batchAgents agent_configs).zip
              (List.replicate (batchAgents agent_configs).length input)).length) := by
          rw [batch_zip_length]
          exact hord k
        have hrlen : results.length = agent_configs.length := by
          have hlen := execute_parallel_ok_length hordk hp
          simpa [batchAgents] using hlen
        refine ⟨results.map PyAgentResult.fromResult :: groups, ?_, ?_, ?_⟩
        · simp [hl, hg1]
        · simp [hg2]
        · intro g hg
          rcases List.mem_cons.mp hg with h1 | h2
          · rw [h1]
            simp [hrlen]
          · exact hg3 g h2

/-- Claim C4: a successful `execute_agents_batch` over C configs and M
inputs returns exactly C×M results, grouped input-major: the output is the
concatenation of M groups (one per input, in input order, each produced by
one parallel run of the fresh per-config agents against that single input)
of C results each. The model runs inputs strictly sequentially. -/
theorem execute_agents_batch_counts (agent_configs : List (String × AgentConfig))
    (inputs : List String) (net : Nat → Nat → HttpOutcome)
    (elapsed : Nat → Nat → Nat) (base : Nat → Nat) (order : Nat → List Nat)
    (l : List PyAgentResult)
    (hord : ∀ k, (order k).Perm (List.range agent_configs.length))
    (hok : execute_agents_batch agent_configs inputs net elapsed base order =
      Except.ok l) :
    l.length = agent_configs.length * inputs.length ∧
    ∃ groups : List (List PyAgentResult),
      l = groups.flatten ∧ groups.length = inputs.length ∧
      ∀ g ∈ groups, g.length = agent_configs.length := by
  obtain ⟨groups, hg1, hg2, hg3⟩ :=
    batchGo_ok_groups agent_configs net elapsed base order hord inputs 0 l hok
  refine ⟨?_, groups, hg1, hg2, hg3⟩
  have hmap : groups.map List.length =
      List.replicate inputs.length agent_configs.length := by
    rw [List.eq_replicate_iff]
    constructor
    · simp [hg2]
    · intro b hb
      obtain ⟨g, hgmem, hgb⟩ := List.mem_map.mp hb
      rw [← hgb]
      exact hg3 g hgmem
  rw [hg1, List.length_flatten, hmap, List.sum_replicate, smul_eq_mul]
  exact Nat.mul_comm _ _

/-- Claim C4 witness: one config, one input, a successful run returning
exactly one group of one result. -/
theorem execute_agents_batch_counts_witness :
    ((∀ k : Nat, (([0] : List Nat)).Perm (List.range batchConfigs.length)) ∧
      execute_agents_batch batchConfigs ["hello"] (fun _ => netHiThere)
        (fun _ _ => 3) (fun _ => 0) (fun _ => [0]) = Except.ok batchOut) ∧
    (batchOut.length = batchConfigs.length * ["hello"].length ∧
      ∃ groups : List (List PyAgentResult),
        batchOut = groups.flatten ∧ groups.length = ["hello"].length ∧
        ∀ g ∈ groups, g.length = batchConfigs.length) := by
  have hord : ∀ k : Nat, (([0] : List Nat)).Perm (List.range batchConfigs.length) := by
    intro k
    decide
  exact ⟨⟨hord, rfl⟩,
    execute_agents_batch_counts batchConfigs ["hello"] (fun _ => netHiThere)
      (fun _ _ => 3) (fun _ => 0) (fun _ => [0]) batchOut hord rfl⟩

/-- Claim C5: for every collection `R`, `get_metrics` returns metrics with
`successful + failed = total_agents`, where `total_agents` is the length of
`R` and `successful` counts exactly the results whose status is the exact
string `"completed"`. -/
theorem get_metrics_successful_add_failed (R : List PyAgentResult) :
    (get_metrics R).successful + (get_metrics R).failed = (get_metrics R).total_agents ∧
    (get_metrics R).total_agents = R.length ∧
    (get_metrics R).successful = (R.filter (fun r => r.status == "completed")).length := by
  refine ⟨?_, rfl, rfl⟩
  have hle : (R.filter (fun r => r.status == "completed")).length ≤ R.length :=
    List.length_filter_le _ _
  simpa [get_metrics] using Nat.add_sub_cancel' hle

/-- Claim C8: on every non-empty collection, `total_time` is the sum of the
durations and `avg_time` is `total_time` divided by the length (exactly, in
the exact-rational model of f64). -/
theorem get_metrics_total_and_average (R : List PyAgentResult) (h : R ≠ []) :
    (get_metrics R).total_time = (R.map (fun r => r.execution_time)).sum ∧
    (get_metrics R).avg_time =
      (R.map (fun r => r.execution_time)).sum / (R.length : ℚ) := by
  refine ⟨rfl, ?_⟩
  have hpos : 0 < R.length := List.length_pos.mpr h
  simp [get_metrics, hpos]

/-- Claim C8 witness: a concrete two-element collection. -/
theorem get_metrics_total_and_average_witness :
    ([⟨"a", "completed", some "ok", none, 5⟩,
      ⟨"b", "x", none, some "boom", 7⟩] : List PyAgentResult) ≠ [] ∧
    (get_metrics [⟨"a", "completed", some "ok", none, 5⟩,
        ⟨"b", "x", none, some "boom", 7⟩]).total_time =
      (([⟨"a", "completed", some "ok", none, 5⟩,
         ⟨"b", "x", none, some "boom", 7⟩] : List PyAgentResult).map
        (fun r => r.execution_time)).sum ∧
    (get_metrics [⟨"a", "completed", some "ok", none, 5⟩,
        ⟨"b", "x", none, some "boom", 7⟩]).avg_time =
      (([⟨"a", "completed", some "ok", none, 5⟩,
         ⟨"b", "x", none, some "boom", 7⟩] : List PyAgentResult).map
        (fun r => r.execution_time)).sum /
        (([⟨"a", "completed", some "ok", none, 5⟩,
           ⟨"b", "x", none, some "boom", 7⟩] : List PyAgentResult).length : ℚ) := by
  refine ⟨by decide, ?_, ?_⟩
  · exact (get_metrics_total_and_average _ (by decide)).1
  · exact (get_metrics_total_and_average _ (by decide)).2

/-- Claim C1 (code divergence): on a transport failure — `send()` returning
`Err` (network failure or timeout) — `execute` propagates the error out via
the `?` operator and returns no `AgentResult` at all, contradicting the
claim that it returns a Failed result and never propagates. Evaluated at
the failing input. -/
theorem execute_transport_failure_propagates :
    (RustAgent.new testConfig).execute "hello"
        (HttpOutcome.sendError "error sending request: connection refused")
        5 "cid-1" =
      Except.error "error sending request: connection refused" := by
  rfl

/-- Claim C3 counterexample: a response arriving with non-success HTTP
status 500 and a JSON body (the empty object) yields a result with status
`"completed"`, not Failed — the status code is never inspected. -/
theorem execute_ignores_http_status_counterexample :
    (RustAgent.new testConfig).execute "task"
        (HttpOutcome.response 500 (Except.ok (Json.obj []))) 7 "cid-2" =
      Except.ok { agent_id := "cid-2", status := "completed", output := none,
                  error := none, duration_ms := 7 } ∧
    ∀ r, (RustAgent.new testConfig).execute "task"
        (HttpOutcome.response 500 (Except.ok (Json.obj []))) 7 "cid-2" =
      Except.ok r → r.status ≠ "failed" ∧ r.status = "completed" := by
  refine ⟨rfl, ?_⟩
  intro r hr
  have : r = { agent_id := "cid-2", status := "completed", output := none,
               error := none, duration_ms := 7 } := by
    simpa [RustAgent.execute] using hr.symm
  subst this
  exact ⟨by decide, rfl⟩

/-- Claim C3 amended: `execute` never inspects the HTTP status code. For
every response that arrives (any status code, success or not) whose body
parses as JSON, the result has status `"completed"`; success is judged by
transport-level success plus body parseability, not by HTTP-level
success. -/
theorem execute_status_independent_of_http_status (agent : RustAgent)
    (task : String) (s : Nat) (j : Json) (e : Nat) (u : String) :
    agent.execute task (HttpOutcome.response s (Except.ok j)) e u =
      Except.ok { agent_id := u, status := "completed",
                  output := (j.get "response").bind Json.asStr,
                  error := none, duration_ms := e } := by
  rfl

/-- `as_str` succeeds exactly on the string variant. -/
theorem asStr_eq_some {j : Json} {s : String}
    (h : j.asStr = some s) : j = Json.str s := by
  cases j with
  | str s2 => simpa [Json.asStr] using congrArg (Option.map Json.str) h
  | null => simp [Json.asStr] at h
  | bool b => simp [Json.asStr] at h
  | num q => simp [Json.asStr] at h
  | arr xs => simp [Json.asStr] at h
  | obj kvs => simp [Json.asStr] at h

/-- Claim C6: on a successful HTTP response whose body parses as JSON, the
result is Completed with no error; the body's `"response"` field, when
present and a string, becomes the output, and when absent or of the wrong
type the output is absent while the status is still Completed. -/
theorem execute_success_output_extraction (agent : RustAgent) (task : String)
    (s : Nat) (j : Json) (e : Nat) (u : String)
    (hs : 200 ≤ s ∧ s < 300) :
    ∃ r, agent.execute task (HttpOutcome.response s (Except.ok j)) e u =
        Except.ok r ∧
      r.status = "completed" ∧ r.error = none ∧
      r.output = (j.get "response").bind Json.asStr ∧
      (∀ v, j.get "response" = some (Json.str v) → r.output = some v) ∧
      ((∀ v, j.get "response" ≠ some (Json.str v)) → r.output = none) := by
  refine ⟨_, rfl, rfl, rfl, rfl, ?_, ?_⟩
  · intro v hv
    simp [hv, Json.asStr]
  · intro hnostr
    cases hget : j.get "response" with
    | none => simp [hget]
    | some v =>
      cases hv : v.asStr with
      | none => simp [hget, hv]
      | some s2 => exact absurd (asStr_eq_some hv ▸ hget) (hnostr s2)

/-- Claim C6 witness: HTTP 200 with body `response = "hi there"` — the
field becomes the output. -/
theorem execute_success_output_extraction_witness :
    (200 ≤ 200 ∧ 200 < 300) ∧
    ∃ r, (RustAgent.new testConfig).execute "hello"
        (HttpOutcome.response 200
          (Except.ok (Json.obj [("response", Json.str "hi there")]))) 3 "cid-3" =
        Except.ok r ∧
      r.status = "completed" ∧ r.error = none ∧
      r.output = ((Json.obj [("response", Json.str "hi there")]).get "response").bind
        Json.asStr ∧
      (∀ v, (Json.obj [("response", Json.str "hi there")]).get "response" =
          some (Json.str v) → r.output = some v) ∧
      ((∀ v, (Json.obj [("response", Json.str "hi there")]).get "response" ≠
          some (Json.str v)) → r.output = none) :=
  ⟨by decide,
    execute_success_output_extraction (RustAgent.new testConfig) "hello" 200
      (Json.obj [("response", Json.str "hi there")]) 3 "cid-3" (by decide)⟩

/-- Claim C7: `get_metrics` on the empty collection returns all-zero
metrics; the division by `total_agents` is special-cased (the `if` guard),
so no division error occurs. -/
theorem get_metrics_empty :
    get_metrics [] =
      { total_agents := 0, successful := 0, failed := 0,
        total_time := 0, avg_time := 0 } := by
  rfl
